import Mathlib

/-!
Verification of the SELECT execution pipeline of `src/executor/select.rs`:
parameter resolution (`fetch_select_params`), the row source
(`fetch_blended`), the join engine (`join`), and the orchestrating
pipeline (`select`).  The external collaborators that the executor calls
(`fetch_columns`, `Filter`/`BlendedFilter`, `Limit`, `Blend`) are not part
of the executor source; each is modelled from the specification and marked
as such in its doc comment.  Rust panics (`expect`, `unwrap`,
`unimplemented`) are modelled explicitly by the `Outcome` type, so that
process aborts are distinguishable from structured error returns.
-/

namespace GlueSQL

/-- A scalar value stored in a row; modelled as an integer. -/
abbrev Value := Int

/-- A stored row: an ordered sequence of scalar values. -/
abbrev Row := List Value

/-- A column descriptor; only the column name is relevant to this core. -/
abbrev Column := String

/-- A table reference from the parsed statement: a name and an optional
alias (the executor only uses the name). -/
structure Table where
  name : String
  alias_name : Option String
deriving DecidableEq

/-- One scope of the context chain (`BlendContext` in the source): the
table, its column schema, the row key, the row, and the exclusive link to
the outer scope (`next`). -/
inductive BlendContext where
  | mk (table : Table) (columns : List Column) (key : Nat) (row : Row)
      (next : Option BlendContext)

/-- The table of the innermost scope. -/
def BlendContext.table : BlendContext → Table
  | .mk t _ _ _ _ => t

/-- The column schema of the innermost scope. -/
def BlendContext.columns : BlendContext → List Column
  | .mk _ c _ _ _ => c

/-- The row key of the innermost scope. -/
def BlendContext.key : BlendContext → Nat
  | .mk _ _ k _ _ => k

/-- The row of the innermost scope. -/
def BlendContext.row : BlendContext → Row
  | .mk _ _ _ r _ => r

/-- The link from the innermost scope to the outer chain. -/
def BlendContext.next : BlendContext → Option BlendContext
  | .mk _ _ _ _ n => n

/-- Correlation context: a chain of (table, columns, row) scopes from an
enclosing query, referenced read-only during predicate evaluation. -/
inductive FilterContext where
  | mk (table : Table) (columns : List Column) (row : Row)
      (next : Option FilterContext)

/-- Modelled from the spec: expression evaluation is an external
collaborator (the `Filter`/`BlendedFilter` evaluator is outside the
executor source), so a condition expression is modelled semantically as
the boolean it evaluates to, given the candidate scope handed over by the
join engine, the current context chain, and the optional correlation
context. -/
def ConditionExpression : Type :=
  Option (Table × List Column × Row) → BlendContext → Option FilterContext → Bool

/-- Modelled from the spec: `BlendedFilter.check` — an absent predicate
admits every row; otherwise the expression is evaluated on the candidate
scope, the context chain held by the blended filter, and the correlation
context held by the filter. -/
def blendedFilterCheck (clause : Option ConditionExpression)
    (filter_context : Option FilterContext) (blend_context : BlendContext)
    (candidate : Option (Table × List Column × Row)) : Bool :=
  match clause with
  | none => true
  | some expr => expr candidate blend_context filter_context

/-- The right-hand side of a join clause in the parsed statement; only a
plain named table is supported by the executor. -/
inductive JoinRightSide where
  | table (t : Table)
  | tables (ts : List Table)
  | nestedSelect

/-- The join operator of a join clause. -/
inductive JoinOperator where
  | join
  | innerJoin
  | leftJoin
  | leftOuterJoin
  | rightJoin
  | crossJoin
deriving DecidableEq

/-- The join constraint of a join clause; only `On` is supported by the
executor. -/
inductive JoinConstraint where
  | On (expr : ConditionExpression)
  | Using (cols : List Column)

/-- A join clause of the parsed statement. -/
structure JoinClause where
  operator : JoinOperator
  right : JoinRightSide
  constraint : JoinConstraint

/-- The parsed limit clause: an optional row count and an optional
offset. -/
structure LimitClause where
  limit : Option Nat
  offset : Option Nat
deriving DecidableEq

/-- An output field of the statement: a wildcard or a named column. -/
inductive FieldDefinition where
  | star
  | column (name : String)
deriving DecidableEq

/-- The parsed SELECT statement, restricted to the parts the executor
reads: tables, join clauses, WHERE clause, limit clause, output fields. -/
structure SelectStatement where
  tables : List Table
  join : List JoinClause
  where_clause : Option ConditionExpression
  limit : Option LimitClause
  fields : List FieldDefinition

/-- The storage contract: scanning a table yields its (key, row) pairs in
the storage enumeration order, or fails (`none`, the `Err` case of the
Rust `Result`); the schema lookup returns a table's column list, or fails
(`none`) when the table is unknown. -/
structure Store where
  get_data : String → Option (List (Nat × Row))
  get_columns : String → Option (List Column)

/-- Result of running a piece of the executor: either a value, or a
process abort (a Rust panic raised by `unwrap`, `expect` or
`unimplemented`) carrying the panic message. -/
inductive Outcome (α : Type) where
  | ok (val : α)
  | panicked (msg : String)

/-- The panic message of the `expect` on the statement's table list. -/
def expectTablesMsg : String := "SelectStatement->tables should have something"

/-- The panic message of `unimplemented`. -/
def unimplementedMsg : String := "not implemented"

/-- The panic message of `unwrap` applied to a failed storage lookup. -/
def unwrapMsg : String := "called unwrap on an Err value"

/-- Modelled from the spec: the schema resolver `fetch_columns` lives
outside the executor source; it performs one storage schema lookup for
the given table and, per the storage contract, fails when the table is
unknown — a failure the source surfaces as a crash, modelled as a
panic. -/
def fetch_columns (storage : Store) (table : Table) : Outcome (List Column) :=
  match storage.get_columns table.name with
  | some columns => .ok columns
  | none => .panicked unwrapMsg

/-- The select parameters resolved once per query: the driving table and
its columns, and each join target with its columns, in clause order. -/
structure SelectParams where
  table : Table
  columns : List Column
  join_columns : List (Table × List Column)

/-- The per-join-clause schema lookup inside `fetch_select_params`,
walking the clauses left to right: each clause's right-hand side must be
a plain named table, anything else hits `unimplemented`; a table right
side is resolved with `fetch_columns`, whose failure propagates. -/
def fetch_join_columns (storage : Store) :
    List JoinClause → Outcome (List (Table × List Column))
  | [] => .ok []
  | clause :: rest =>
    match clause.right with
    | .table t =>
      match fetch_columns storage t with
      | .panicked m => .panicked m
      | .ok cols =>
        match fetch_join_columns storage rest with
        | .ok others => .ok ((t, cols) :: others)
        | .panicked m => .panicked m
    | _ => .panicked unimplementedMsg

/-- The source `fetch_select_params`: takes the first table of the
statement (`expect`ing one to exist, a panic otherwise), resolves its
columns, and then resolves the columns of every join clause's right-side
table; a schema-lookup failure at any of these propagates. -/
def fetch_select_params (storage : Store) (statement : SelectStatement) :
    Outcome SelectParams :=
  match statement.tables.head? with
  | none => .panicked expectTablesMsg
  | some table =>
    match fetch_columns storage table with
    | .panicked m => .panicked m
    | .ok columns =>
      match fetch_join_columns storage statement.join with
      | .ok join_columns => .ok ⟨table, columns, join_columns⟩
      | .panicked m => .panicked m

/-- The source `fetch_blended`: scans the driving table (the `unwrap`
panics when the scan fails) and seeds one single-scope context chain per
stored row, preserving the scan order. -/
def fetch_blended (storage : Store) (table : Table) (columns : List Column) :
    Outcome (List BlendContext) :=
  match storage.get_data table.name with
  | none => .panicked unwrapMsg
  | some rows => .ok (rows.map fun kr => .mk table columns kr.1 kr.2 none)

/-- The source `join`: applies one join clause to a driving chain.  Only
an `On` constraint is supported (`unimplemented` otherwise); the joined
table is scanned (`unwrap` panics on scan failure); the first candidate
row, in scan order, whose predicate holds extends the chain with one new
innermost scope; with no match the operator decides between passing the
chain through unchanged (left outer) and dropping it (inner), and any
other operator hits `unimplemented`. -/
def join (storage : Store) (join_clause : JoinClause) (table : Table)
    (columns : List Column) (filter_context : Option FilterContext)
    (blend_context : BlendContext) : Outcome (Option BlendContext) :=
  match join_clause.constraint with
  | .On clause =>
    match storage.get_data table.name with
    | none => .panicked unwrapMsg
    | some rows =>
      match rows.find? (fun kr =>
          blendedFilterCheck (some clause) filter_context blend_context
            (some (table, columns, kr.2))) with
      | some kr => .ok (some (.mk table columns kr.1 kr.2 (some blend_context)))
      | none =>
        match join_clause.operator with
        | .leftJoin => .ok (some blend_context)
        | .leftOuterJoin => .ok (some blend_context)
        | .join => .ok none
        | .innerJoin => .ok none
        | _ => .panicked unimplementedMsg
  | .Using _ => .panicked unimplementedMsg

/-- The fold of `select` over the zipped join clauses: each clause is
applied left to right to the chain produced by the previous clause, and
`Option.and_then` skips every remaining clause once the chain has been
dropped. -/
def applyJoins (storage : Store) (filter_context : Option FilterContext) :
    List (JoinClause × Table × List Column) → Option BlendContext →
      Outcome (Option BlendContext)
  | [], ctx => .ok ctx
  | _ :: rest, none => applyJoins storage filter_context rest none
  | (clause, table, columns) :: rest, some blend_context =>
    match join storage clause table columns filter_context blend_context with
    | .ok ctx => applyJoins storage filter_context rest ctx
    | .panicked m => .panicked m

/-- The join stage of `select` (`filter_map` over the seeds): every seed
chain is folded through the join clauses, and dropped chains are removed
from the stream. -/
def joinedChains (storage : Store) (filter_context : Option FilterContext)
    (clauses : List (JoinClause × Table × List Column)) :
    List BlendContext → Outcome (List BlendContext)
  | [] => .ok []
  | seed :: rest =>
    match applyJoins storage filter_context clauses (some seed) with
    | .panicked m => .panicked m
    | .ok none => joinedChains storage filter_context clauses rest
    | .ok (some ctx) =>
      match joinedChains storage filter_context clauses rest with
      | .panicked m => .panicked m
      | .ok ctxs => .ok (ctx :: ctxs)

/-- The zipped (join clause, join table, join columns) list that `select`
folds over: the statement's join clauses zipped with the resolved join
columns. -/
def zippedJoins (statement : SelectStatement) (params : SelectParams) :
    List (JoinClause × Table × List Column) :=
  (statement.join.zip params.join_columns).map fun p => (p.1, p.2.1, p.2.2)

/-- Modelled from the spec: `Limit.check` — the gate admits the zero-based
ordinal `i` iff `offset <= i` and, when a count is configured,
`i < offset + count`; an absent clause or component means no bound. -/
def limitCheck (clause : Option LimitClause) (i : Nat) : Bool :=
  match clause with
  | none => true
  | some c =>
    decide (c.offset.getD 0 ≤ i) &&
      match c.limit with
      | none => true
      | some cnt => decide (i < c.offset.getD 0 + cnt)

/-- Modelled from the spec: the projector `Blend.apply` receives one
column list and one row; a wildcard field expands to every received
column's value in declaration order, and a named field resolves to the
value at the column of that name.  The spec surfaces a ColumnNotFound
error for an unresolvable named field; that error path belongs to the
external Blend and is not modelled here — only the wildcard branch is
exercised by this development, and every pipeline theorem below keeps
`blendApply` parametric or applies it to wildcard fields.  Note the
executor hands the projector only the innermost scope's columns and
row. -/
def blendApply (fields : List FieldDefinition) (columns : List Column)
    (row : Row) : Row :=
  fields.foldr
    (fun f acc =>
      match f with
      | .star => (columns.zip row).map Prod.snd ++ acc
      | .column name =>
        match (columns.zip row).find? (fun cr => cr.1 == name) with
        | some cr => cr.2 :: acc
        | none => acc)
    []

/-- The stages of `select` up to and including the WHERE filter: seed
chains from the driving table, fold the join clauses over each seed, then
keep the chains admitted by the WHERE clause (checked with no candidate
scope). -/
def admittedChains (storage : Store) (statement : SelectStatement)
    (params : SelectParams) (filter_context : Option FilterContext) :
    Outcome (List BlendContext) :=
  match fetch_blended storage params.table params.columns with
  | .panicked m => .panicked m
  | .ok seeds =>
    match joinedChains storage filter_context (zippedJoins statement params) seeds with
    | .panicked m => .panicked m
    | .ok chains =>
      .ok (chains.filter fun c =>
        blendedFilterCheck statement.where_clause filter_context c none)

/-- The source `select`: the admitted chains are enumerated, the limit
gate filters the zero-based admitted ordinals, and each surviving chain's
innermost scope is projected through the blend. -/
def select (storage : Store) (statement : SelectStatement)
    (params : SelectParams) (filter_context : Option FilterContext) :
    Outcome (List Row) :=
  match admittedChains storage statement params filter_context with
  | .panicked m => .panicked m
  | .ok admitted =>
    .ok (((admitted.enum.filter fun p => limitCheck statement.limit p.1).map
      Prod.snd).map fun c => blendApply statement.fields c.columns c.row)

/-- Wildcard projection as the spec words it, for comparison with the
code's behavior: every column's value of every scope of the chain, in
outer-to-inner order (driving table first, then each joined table). -/
def specWildcardRow : BlendContext → Row
  | .mk _ columns _ row none => (columns.zip row).map Prod.snd
  | .mk _ columns _ row (some outer) =>
    specWildcardRow outer ++ (columns.zip row).map Prod.snd

/-! Concrete fixtures shared by witnesses and counterexamples. -/

/-- A driving table named A. -/
def tA : Table := ⟨"A", none⟩

/-- A joined table named B. -/
def tB : Table := ⟨"B", none⟩

/-- A predicate that accepts every candidate. -/
def truePred : ConditionExpression := fun _ _ _ => true

/-- A predicate that rejects every candidate. -/
def falsePred : ConditionExpression := fun _ _ _ => false

/-- A single-scope driving chain over table A. -/
def seedA : BlendContext := .mk tA ["x"] 0 [1] none

/-- A store where table B has two rows, both with value 7; every schema
lookup succeeds with one column. -/
def storeB2 : Store :=
  ⟨fun n => if n = "B" then some [(0, [7]), (1, [7])] else none,
   fun _ => some ["id"]⟩

/-- A store that knows only table A: both the scan and the schema lookup
fail for any other table name. -/
def storeOnlyA : Store :=
  ⟨fun n => if n = "A" then some [(0, [1])] else none,
   fun n => if n = "A" then some ["id"] else none⟩

/-! Helper lemmas shared across the claim theorems. -/

/-- Once the chain is dropped, the fold over any remaining clause list
returns the dropped chain without applying any clause. -/
theorem applyJoins_none (storage : Store) (fc : Option FilterContext)
    (clauses : List (JoinClause × Table × List Column)) :
    applyJoins storage fc clauses none = .ok none := by
  induction clauses with
  | nil => rfl
  | cons c rest ih => exact ih

/-- A scan on which the predicate always fails yields no first match. -/
theorem find?_no_match (clause : ConditionExpression) (table : Table)
    (columns : List Column) (fc : Option FilterContext) (bc : BlendContext)
    (rows : List (Nat × Row))
    (hnone : ∀ x ∈ rows,
      blendedFilterCheck (some clause) fc bc (some (table, columns, x.2)) = false) :
    rows.find? (fun kr =>
      blendedFilterCheck (some clause) fc bc (some (table, columns, kr.2))) = none :=
  List.find?_eq_none.mpr fun x hx => by simp [hnone x hx]

/-- A left or left-outer join with no matching candidate passes the
driving chain through unchanged. -/
theorem join_no_match_left (storage : Store) (op : JoinOperator)
    (rhs : JoinRightSide) (clause : ConditionExpression) (table : Table)
    (columns : List Column) (fc : Option FilterContext) (bc : BlendContext)
    (rows : List (Nat × Row))
    (hdata : storage.get_data table.name = some rows)
    (hnone : ∀ x ∈ rows,
      blendedFilterCheck (some clause) fc bc (some (table, columns, x.2)) = false)
    (hop : op = .leftJoin ∨ op = .leftOuterJoin) :
    join storage ⟨op, rhs, .On clause⟩ table columns fc bc = .ok (some bc) := by
  unfold join
  simp only [hdata, find?_no_match clause table columns fc bc rows hnone]
  rcases hop with h | h <;> subst h <;> rfl

/-- An inner join with no matching candidate drops the chain. -/
theorem join_no_match_inner (storage : Store) (op : JoinOperator)
    (rhs : JoinRightSide) (clause : ConditionExpression) (table : Table)
    (columns : List Column) (fc : Option FilterContext) (bc : BlendContext)
    (rows : List (Nat × Row))
    (hdata : storage.get_data table.name = some rows)
    (hnone : ∀ x ∈ rows,
      blendedFilterCheck (some clause) fc bc (some (table, columns, x.2)) = false)
    (hop : op = .join ∨ op = .innerJoin) :
    join storage ⟨op, rhs, .On clause⟩ table columns fc bc = .ok none := by
  unfold join
  simp only [hdata, find?_no_match clause table columns fc bc rows hnone]
  rcases hop with h | h <;> subst h <;> rfl

/-! Claim theorems. -/

/-- C1: applied to a driving chain, the join engine scans the joined
table in storage enumeration order and selects the first candidate row
whose ON predicate evaluates true — exactly the head of the suffix after
a fully non-matching prefix, whatever further matches the rest of the
scan may hold — and extends the chain with exactly one new innermost
scope for it whose outer link is the original chain; a driving chain with
several matching candidates therefore produces one extended chain, not
one per match. -/
theorem join_takes_first_match (storage : Store) (op : JoinOperator)
    (rhs : JoinRightSide) (clause : ConditionExpression) (table : Table)
    (columns : List Column) (fc : Option FilterContext) (bc : BlendContext)
    (pre post : List (Nat × Row)) (k : Nat) (r : Row)
    (hdata : storage.get_data table.name = some (pre ++ (k, r) :: post))
    (hpre : ∀ x ∈ pre,
      blendedFilterCheck (some clause) fc bc (some (table, columns, x.2)) = false)
    (hmatch : blendedFilterCheck (some clause) fc bc (some (table, columns, r)) = true) :
    join storage ⟨op, rhs, .On clause⟩ table columns fc bc =
      .ok (some (.mk table columns k r (some bc))) := by
  unfold join
  have hfind : (pre ++ (k, r) :: post).find? (fun kr =>
      blendedFilterCheck (some clause) fc bc (some (table, columns, kr.2))) =
        some (k, r) := by
    rw [List.find?_append, find?_no_match clause table columns fc bc pre hpre,
      Option.none_or, List.find?_cons_of_pos]
    exact hmatch
  simp only [hdata, hfind]

/-- Witness for C1: table B holds two rows, both matching the always-true
predicate; the join extends the seed chain with the first row (key 0)
only. -/
theorem join_takes_first_match_witness :
    join storeB2 ⟨.innerJoin, .table tB, .On truePred⟩ tB ["id"] none seedA =
      .ok (some (.mk tB ["id"] 0 [7] (some seedA))) :=
  join_takes_first_match storeB2 .innerJoin (.table tB) truePred tB ["id"]
    none seedA [] [(1, [7])] 0 [7] rfl (by simp) rfl

/-- C2: when the ON predicate matches no candidate row of the joined
table, a LEFT JOIN / LEFT OUTER JOIN returns the original driving chain
completely unchanged, a JOIN / INNER JOIN returns nothing, and at the
pipeline level such a dropped seed contributes no chain downstream
whatever join clauses remain. -/
theorem join_no_match_policy (storage : Store) (op : JoinOperator)
    (rhs : JoinRightSide) (clause : ConditionExpression) (table : Table)
    (columns : List Column) (fc : Option FilterContext) (bc : BlendContext)
    (rows : List (Nat × Row))
    (hdata : storage.get_data table.name = some rows)
    (hnone : ∀ x ∈ rows,
      blendedFilterCheck (some clause) fc bc (some (table, columns, x.2)) = false) :
    ((op = .leftJoin ∨ op = .leftOuterJoin) →
      join storage ⟨op, rhs, .On clause⟩ table columns fc bc = .ok (some bc)) ∧
    ((op = .join ∨ op = .innerJoin) →
      join storage ⟨op, rhs, .On clause⟩ table columns fc bc = .ok none) ∧
    ((op = .join ∨ op = .innerJoin) → ∀ rest seeds,
      joinedChains storage fc ((⟨op, rhs, .On clause⟩, table, columns) :: rest)
          (bc :: seeds) =
        joinedChains storage fc ((⟨op, rhs, .On clause⟩, table, columns) :: rest)
          seeds) := by
  refine ⟨fun hop => join_no_match_left storage op rhs clause table columns
    fc bc rows hdata hnone hop,
    fun hop => join_no_match_inner storage op rhs clause table columns
      fc bc rows hdata hnone hop, fun hop rest seeds => ?_⟩
  have hj := join_no_match_inner storage op rhs clause table columns
    fc bc rows hdata hnone hop
  simp only [joinedChains, applyJoins, hj, applyJoins_none]

/-- Witness for C2: with the always-false predicate and table B holding
rows, a left join passes the seed chain through unchanged. -/
theorem join_no_match_policy_witness :
    join storeB2 ⟨.leftJoin, .table tB, .On falsePred⟩ tB ["id"] none seedA =
      .ok (some seedA) :=
  (join_no_match_policy storeB2 .leftJoin (.table tB) falsePred tB ["id"]
    none seedA [(0, [7]), (1, [7])] rfl (by simp [blendedFilterCheck, falsePred])).1
    (Or.inl rfl)

/-- C5: the fold applies join clauses strictly left to right, each
receiving the chain produced by the previous clause, and once the first
clause — an inner join with no match — drops the chain, none of the
remaining clauses is applied to that candidate row: for every remaining
clause list, even one whose application would panic, the fold returns the
dropped chain. -/
theorem join_fold_short_circuit (storage : Store) (op : JoinOperator)
    (rhs : JoinRightSide) (clause : ConditionExpression) (table : Table)
    (columns : List Column) (fc : Option FilterContext) (bc : BlendContext)
    (rows : List (Nat × Row))
    (hdata : storage.get_data table.name = some rows)
    (hnone : ∀ x ∈ rows,
      blendedFilterCheck (some clause) fc bc (some (table, columns, x.2)) = false)
    (hop : op = .join ∨ op = .innerJoin) :
    ∀ rest, applyJoins storage fc
      ((⟨op, rhs, .On clause⟩, table, columns) :: rest) (some bc) = .ok none := by
  intro rest
  have hj := join_no_match_inner storage op rhs clause table columns
    fc bc rows hdata hnone hop
  simp only [applyJoins, hj, applyJoins_none]

/-- Witness for C5: after the first clause drops the seed (inner join, no
match), a remaining clause with an unsupported Using constraint — which
would panic if applied — is never applied: the fold returns the dropped
chain, not a panic. -/
theorem join_fold_short_circuit_witness :
    applyJoins storeB2 none
      [(⟨.innerJoin, .table tB, .On falsePred⟩, tB, ["id"]),
       (⟨.innerJoin, .table tB, .Using ["id"]⟩, tB, ["id"])]
      (some seedA) = .ok none :=
  join_fold_short_circuit storeB2 .innerJoin (.table tB) falsePred tB ["id"]
    none seedA [(0, [7]), (1, [7])] rfl
    (by simp [blendedFilterCheck, falsePred]) (Or.inr rfl)
    [(⟨.innerJoin, .table tB, .Using ["id"]⟩, tB, ["id"])]

/-- With no join clauses, the join stage passes every seed chain
through. -/
theorem joinedChains_nil (storage : Store) (fc : Option FilterContext)
    (seeds : List BlendContext) :
    joinedChains storage fc [] seeds = .ok seeds := by
  induction seeds with
  | nil => rfl
  | cons s rest ih => simp only [joinedChains, applyJoins, ih]

/-- A store where table A has five rows with values 10 to 14. -/
def storeA5 : Store :=
  ⟨fun n =>
    if n = "A" then
      some [(0, [10]), (1, [11]), (2, [12]), (3, [13]), (4, [14])]
    else none,
   fun _ => some ["x"]⟩

/-- A statement over table A with no joins, no WHERE, limit 2 offset 1,
wildcard fields. -/
def stmtLimit : SelectStatement := ⟨[tA], [], none, some ⟨some 2, some 1⟩, [.star]⟩

/-- A statement over table A with no joins, no WHERE, no limit, wildcard
fields. -/
def stmtPlain : SelectStatement := ⟨[tA], [], none, none, [.star]⟩

/-- Select parameters for the driving table A with no joins. -/
def paramsA : SelectParams := ⟨tA, ["x"], []⟩

/-- A single-scope chain over table A with key `k` and one value `v`. -/
def chainA (k : Nat) (v : Value) : BlendContext := .mk tA ["x"] k [v] none

/-- C3: the pipeline runs joins, then the WHERE filter, then the limit
window, then projection — `admittedChains` is exactly the join stage
followed by the WHERE filter, and the ordinal the limit gate tests
enumerates only its chains: with five admitted chains and LIMIT 2
OFFSET 1, the output is exactly the projections of the admitted chains
at ordinals 1 and 2 (zero-based), in order. -/
theorem select_window_counts_admitted (storage : Store)
    (statement : SelectStatement) (params : SelectParams)
    (fc : Option FilterContext) (a b c d e : BlendContext)
    (hadm : admittedChains storage statement params fc = .ok [a, b, c, d, e])
    (hlim : statement.limit = some ⟨some 2, some 1⟩) :
    select storage statement params fc =
      .ok [blendApply statement.fields b.columns b.row,
        blendApply statement.fields c.columns c.row] := by
  simp only [select, hadm, hlim]
  rfl

/-- Witness for C3: five stored rows, all admitted; LIMIT 2 OFFSET 1
returns the projections of the second and third admitted chains. -/
theorem select_window_counts_admitted_witness :
    select storeA5 stmtLimit paramsA none =
      .ok [blendApply stmtLimit.fields (chainA 1 11).columns (chainA 1 11).row,
        blendApply stmtLimit.fields (chainA 2 12).columns (chainA 2 12).row] :=
  select_window_counts_admitted storeA5 stmtLimit paramsA none
    (chainA 0 10) (chainA 1 11) (chainA 2 12) (chainA 3 13) (chainA 4 14)
    (by rfl) rfl

/-- C6: with no join clauses, no WHERE clause and no limit clause, the
output has exactly one row per stored row of the driving table, in the
storage enumeration order — it is precisely the scan mapped through the
projector, so its length is the scan's length and the order is
preserved, and the absent WHERE clause admits every row. -/
theorem select_no_join_no_filter (storage : Store)
    (statement : SelectStatement) (params : SelectParams)
    (fc : Option FilterContext) (rows : List (Nat × Row))
    (hjoin : statement.join = [])
    (hwhere : statement.where_clause = none)
    (hlimit : statement.limit = none)
    (hdata : storage.get_data params.table.name = some rows) :
    select storage statement params fc =
      .ok (rows.map fun kr => blendApply statement.fields params.columns kr.2) := by
  have hz : zippedJoins statement params = [] := by
    unfold zippedJoins
    rw [hjoin]
    rfl
  simp only [select, admittedChains, fetch_blended, hdata, hz, joinedChains_nil,
    hwhere, hlimit, blendedFilterCheck, limitCheck, List.filter_true,
    List.enum_map_snd, List.map_map]
  rfl

/-- Witness for C6: five stored rows in table A, no joins, no WHERE, no
limit: the output is the scan mapped through the projector. -/
theorem select_no_join_no_filter_witness :
    select storeA5 stmtPlain paramsA none =
      .ok (([(0, [10]), (1, [11]), (2, [12]), (3, [13]), (4, [14])] :
          List (Nat × Row)).map
        fun kr => blendApply stmtPlain.fields paramsA.columns kr.2) :=
  select_no_join_no_filter storeA5 stmtPlain paramsA none
    [(0, [10]), (1, [11]), (2, [12]), (3, [13]), (4, [14])] rfl rfl rfl rfl

/-- Store for the two-table join example: table A rows (1,100),(2,200);
table B rows (1,10),(3,30). -/
def storeJoin : Store :=
  ⟨fun n =>
    if n = "A" then some [(0, [1, 100]), (1, [2, 200])]
    else if n = "B" then some [(0, [1, 10]), (1, [3, 30])]
    else none,
   fun n => if n = "A" then some ["id", "x"] else some ["id", "y"]⟩

/-- ON predicate of the example: the candidate row's first value equals
the first value of the driving chain's innermost row. -/
def onIdEq : ConditionExpression := fun cand chain _ =>
  match cand with
  | some (_, _, r) => r.getD 0 0 == chain.row.getD 0 0
  | none => false

/-- The example statement: table A inner-joined to table B on equal ids,
no WHERE, no limit, one wildcard field. -/
def stmtJoin : SelectStatement :=
  ⟨[tA], [⟨.innerJoin, .table tB, .On onIdEq⟩], none, none, [.star]⟩

/-- Select parameters of the example. -/
def paramsJoin : SelectParams := ⟨tA, ["id", "x"], [(tB, ["id", "y"])]⟩

/-- The single admitted chain of the example: B's row (1,10) joined as
innermost scope over A's row (1,100). -/
def chainJoin : BlendContext :=
  .mk tB ["id", "y"] 0 [1, 10] (some (.mk tA ["id", "x"] 0 [1, 100] none))

/-- C4: refuted on the code.  On the two-table inner-join query with a
wildcard field, the single admitted chain holds both scopes, and the
wildcard expansion the spec mandates — every column of every scope,
outer to inner — is [1, 100, 1, 10]; but `select` hands the blend only
the innermost scope's columns and row, so the produced output row is
[1, 10], missing the driving table's columns. -/
theorem select_wildcard_projects_innermost_only :
    admittedChains storeJoin stmtJoin paramsJoin none = .ok [chainJoin] ∧
    specWildcardRow chainJoin = [1, 100, 1, 10] ∧
    select storeJoin stmtJoin paramsJoin none = .ok [[1, 10]] ∧
    [[1, 10]] ≠ [specWildcardRow chainJoin] :=
  ⟨rfl, rfl, rfl, by decide⟩

/-- C7: refuted on the code.  Each query shape outside the supported
fragment hits `unimplemented` — a process abort, not a structured error:
a join right-hand side that is not a plain named table panics inside
`fetch_select_params`; a Using join constraint panics inside `join`; an
unsupported operator (here RIGHT JOIN), reached when no candidate row
matches, panics inside `join`. -/
theorem unsupported_shapes_panic :
    fetch_select_params storeB2
        ⟨[tA], [⟨.innerJoin, .nestedSelect, .On truePred⟩], none, none, [.star]⟩ =
      .panicked unimplementedMsg ∧
    join storeB2 ⟨.innerJoin, .table tB, .Using ["id"]⟩ tB ["id"] none seedA =
      .panicked unimplementedMsg ∧
    join storeB2 ⟨.rightJoin, .table tB, .On falsePred⟩ tB ["id"] none seedA =
      .panicked unimplementedMsg :=
  ⟨rfl, rfl, rfl⟩

/-- C8: refuted on the code.  When the storage scan of a table fails
(here: table A is unknown to the store), both the row source
`fetch_blended` and the join engine's inner-table scan apply `unwrap` to
the failed result — a panic, not a propagated structured error. -/
theorem storage_failure_panics :
    fetch_blended storeB2 tA ["x"] = .panicked unwrapMsg ∧
    join storeB2 ⟨.innerJoin, .table tA, .On truePred⟩ tA ["x"] none seedA =
      .panicked unwrapMsg :=
  ⟨rfl, rfl⟩

/-- C9 counterexample: a statement naming two comma-joined tables does
not fail fast — parameter resolution returns ok, silently using only the
first table (A) as driving table and ignoring the second (B), even
though the store does not know table B at all (its schema lookup and
scan both fail for B): the second table is never looked up. -/
theorem two_tables_resolved_without_error :
    fetch_select_params storeOnlyA ⟨[tA, tB], [], none, none, [.star]⟩ =
      .ok ⟨tA, ["id"], []⟩ := rfl

/-- C9 amended: for a statement whose tables list starts with `t`,
whenever the driving table's own schema lookup succeeds and the join
clauses resolve, parameter resolution succeeds with `t` as the driving
table whatever comma-joined tables follow — they are silently ignored,
never looked up, and raise no error. -/
theorem fetch_select_params_uses_first_table (storage : Store) (t : Table)
    (rest : List Table) (js : List JoinClause)
    (wc : Option ConditionExpression) (lim : Option LimitClause)
    (fds : List FieldDefinition) (cols : List Column)
    (jc : List (Table × List Column))
    (hcols : storage.get_columns t.name = some cols)
    (hjc : fetch_join_columns storage js = .ok jc) :
    fetch_select_params storage ⟨t :: rest, js, wc, lim, fds⟩ =
      .ok ⟨t, cols, jc⟩ := by
  simp only [fetch_select_params, List.head?_cons, fetch_columns, hcols, hjc]

/-- Witness for the amended C9: with tables [A, B] over the store that
does not know B, resolution returns the parameters of table A. -/
theorem fetch_select_params_uses_first_table_witness :
    fetch_select_params storeOnlyA ⟨[tA, tB], [], none, none, [.star]⟩ =
      .ok ⟨tA, ["id"], []⟩ :=
  fetch_select_params_uses_first_table storeOnlyA tA [tB] [] none none [.star]
    ["id"] [] rfl rfl

/-- Every run of the per-join-clause schema lookup either succeeds or
panics — with the `unimplemented` message for a non-table right side, or
with the `unwrap` message for a failed schema lookup; in particular it
never panics with the `expect` message. -/
theorem fetch_join_columns_cases (storage : Store) (js : List JoinClause) :
    (∃ jc, fetch_join_columns storage js = .ok jc) ∨
      fetch_join_columns storage js = .panicked unimplementedMsg ∨
      fetch_join_columns storage js = .panicked unwrapMsg := by
  induction js with
  | nil => exact Or.inl ⟨[], rfl⟩
  | cons c rest ih =>
    cases hc : c.right with
    | table t =>
      cases hcols : storage.get_columns t.name with
      | none =>
        exact Or.inr (Or.inr
          (by simp only [fetch_join_columns, hc, fetch_columns, hcols]))
      | some cols =>
        rcases ih with ⟨jc, hjc⟩ | hjc | hjc
        · exact Or.inl ⟨(t, cols) :: jc,
            by simp only [fetch_join_columns, hc, fetch_columns, hcols, hjc]⟩
        · exact Or.inr (Or.inl
            (by simp only [fetch_join_columns, hc, fetch_columns, hcols, hjc]))
        · exact Or.inr (Or.inr
            (by simp only [fetch_join_columns, hc, fetch_columns, hcols, hjc]))
    | tables ts => exact Or.inr (Or.inl (by simp only [fetch_join_columns, hc]))
    | nestedSelect =>
      exact Or.inr (Or.inl (by simp only [fetch_join_columns, hc]))

/-- When every join right side is a plain named table whose schema
lookup succeeds, the per-clause schema lookup succeeds. -/
theorem fetch_join_columns_total (storage : Store) (js : List JoinClause)
    (h : ∀ c ∈ js, ∃ t cols, c.right = JoinRightSide.table t ∧
      storage.get_columns t.name = some cols) :
    ∃ jc, fetch_join_columns storage js = .ok jc := by
  induction js with
  | nil => exact ⟨[], rfl⟩
  | cons c rest ih =>
    obtain ⟨t, cols, ht, hcols⟩ := h c (by simp)
    obtain ⟨jc, hjc⟩ := ih fun x hx => h x (by simp [hx])
    exact ⟨(t, cols) :: jc,
      by simp only [fetch_join_columns, ht, fetch_columns, hcols, hjc]⟩

/-- C10 counterexample: with a nonempty tables list but a join clause
whose right-hand side is not a plain named table, `fetch_select_params`
still panics (`unimplemented`), so nonemptiness of the tables sequence
does not make it total — only the `expect` branch is avoided. -/
theorem fetch_select_params_nonempty_still_panics :
    fetch_select_params storeB2
        ⟨[tB], [⟨.innerJoin, .nestedSelect, .On truePred⟩], none, none, [.star]⟩ =
      .panicked unimplementedMsg := rfl

/-- C10 amended: on an empty tables sequence `fetch_select_params` panics
via `expect` (a process abort, not a structured error); on a nonempty
tables sequence the `expect` branch is unreachable — the expect message
is never the outcome — but `fetch_select_params` is not total in
general: it is total when additionally every join right-hand side is a
plain named table and every schema lookup involved (the driving table's
and each join table's) succeeds. -/
theorem fetch_select_params_expect_branch (storage : Store)
    (statement : SelectStatement) :
    (statement.tables = [] →
      fetch_select_params storage statement = .panicked expectTablesMsg) ∧
    (statement.tables ≠ [] →
      fetch_select_params storage statement ≠ .panicked expectTablesMsg) ∧
    (∀ t rest, statement.tables = t :: rest →
      (∃ cols, storage.get_columns t.name = some cols) →
      (∀ c ∈ statement.join, ∃ tj cols, c.right = JoinRightSide.table tj ∧
        storage.get_columns tj.name = some cols) →
      ∃ p, fetch_select_params storage statement = .ok p) := by
  refine ⟨fun h => ?_, fun h => ?_, fun t rest hts hex hall => ?_⟩
  · simp only [fetch_select_params, h, List.head?_nil]
  · cases hts : statement.tables with
    | nil => exact absurd hts h
    | cons t rest =>
      simp only [fetch_select_params, hts, List.head?_cons]
      cases hcols : storage.get_columns t.name with
      | none =>
        simp only [fetch_columns, hcols]
        intro hcon
        have hmsg : unwrapMsg = expectTablesMsg := by injection hcon
        exact absurd hmsg (by decide)
      | some cols =>
        simp only [fetch_columns, hcols]
        rcases fetch_join_columns_cases storage statement.join with
          ⟨jc, hjc⟩ | hjc | hjc
        · rw [hjc]
          simp
        · rw [hjc]
          intro hcon
          have hmsg : unimplementedMsg = expectTablesMsg := by injection hcon
          exact absurd hmsg (by decide)
        · rw [hjc]
          intro hcon
          have hmsg : unwrapMsg = expectTablesMsg := by injection hcon
          exact absurd hmsg (by decide)
  · obtain ⟨cols, hcols⟩ := hex
    obtain ⟨jc, hjc⟩ := fetch_join_columns_total storage statement.join hall
    exact ⟨⟨t, cols, jc⟩, by simp only [fetch_select_params, hts,
      List.head?_cons, fetch_columns, hcols, hjc]⟩

/-- Witness for the amended C10: the plain one-table statement over the
store that knows table A resolves to some parameters. -/
theorem fetch_select_params_expect_branch_witness :
    ∃ p, fetch_select_params storeOnlyA stmtPlain = .ok p :=
  (fetch_select_params_expect_branch storeOnlyA stmtPlain).2.2 tA [] rfl
    ⟨["id"], rfl⟩ (by intro c hc; simp [stmtPlain] at hc)

end GlueSQL
